import Mathlib

/-!
Shallow embedding of the Floower power & sleep orchestrator
(`src/src/floower-esp32/floower-esp32.ino`).

The sketch's global state (batteryDead, batteryCharging, deepSleepTime,
periodicOperationsTime, initRemoteTime, plus the floower collaborator's
low-power flag) is modelled as an explicit record `OrchState`.  Calls to
collaborators (floower, remote, watchdog) are modelled as an emitted list
of `Effect` events.  `millis()` is modelled as a `Nat` supplied per loop
iteration; `esp_deep_sleep_start` never returns, which is modelled by a
`halted` flag that freezes the state machine.
-/

namespace Floower

/-- `const bool deepSleepEnabled = true` (line 11). -/
def deepSleepEnabled : Bool := true

/-- `#define POWER_LOW_ENTER_THRESHOLD 0` (line 26). -/
def POWER_LOW_ENTER_THRESHOLD : ℚ := 0

/-- `#define POWER_LOW_LEAVE_THRESHOLD 0` (line 27). -/
def POWER_LOW_LEAVE_THRESHOLD : ℚ := 0

/-- `#define POWER_DEAD_THRESHOLD 3.4` (line 28). -/
def POWER_DEAD_THRESHOLD : ℚ := mkRat 17 5

/-- `#define REMOTE_INIT_TIMEOUT 2000` (line 32). -/
def REMOTE_INIT_TIMEOUT : Nat := 2000

/-- `#define DEEP_SLEEP_INACTIVITY_TIMEOUT 60000` (line 33). -/
def DEEP_SLEEP_INACTIVITY_TIMEOUT : Nat := 60000

/-- `#define BATTERY_DEAD_WARNING_DURATION 5000` (line 34). -/
def BATTERY_DEAD_WARNING_DURATION : Nat := 5000

/-- `#define PERIODIC_OPERATIONS_INTERVAL 3000` (line 35). -/
def PERIODIC_OPERATIONS_INTERVAL : Nat := 3000

/-- `#define WDT_TIMEOUT 10` (seconds, line 36). -/
def WDT_TIMEOUT : Nat := 10

/-- A battery reading: `struct Battery { voltage, level }`. -/
structure Battery where
  voltage : ℚ
  level : Nat
deriving DecidableEq

/-- The two colors the orchestrator sends to the floower collaborator. -/
inductive FColor
  | red
  | black
deriving DecidableEq

/-- `FloowerColorMode` values used by the sketch. -/
inductive FColorMode
  | TRANSITION
  | FLASH
deriving DecidableEq

/-- Observable calls the orchestrator makes on its collaborators. -/
inductive Effect
  | wdtReset
  | acty
  | readBattery
  | setBatteryLevel (level : Nat) (charging : Bool)
  | setLowPowerMode (low : Bool)
  | setColor (c : FColor) (m : FColorMode) (durationMs : Nat)
  | setPetalsOpenLevel (level : Nat) (durationMs : Nat)
  | initServo
  | automatonInit
  | remoteInit
  | startAdvertising
  | enterDeepSleep
deriving DecidableEq

/-- The sketch's global mutable state (lines 38-42) together with the
floower collaborator's low-power flag (read and written only through
`isLowPowerMode` / `setLowPowerMode`) and a `halted` flag modelling that
`esp_deep_sleep_start()` never returns. -/
structure OrchState where
  batteryDead : Bool
  batteryCharging : Bool
  deepSleepTime : Nat
  periodicOperationsTime : Nat
  initRemoteTime : Nat
  lowPowerMode : Bool
  halted : Bool
deriving DecidableEq

/-- Power mode as the spec names it, derived from the two flags:
`Dead` when `batteryDead`, else `LowPower` when the floower low-power
flag is set, else `Normal`. -/
inductive PowerMode
  | Normal
  | LowPower
  | Dead
deriving DecidableEq

def powerMode (s : OrchState) : PowerMode :=
  if s.batteryDead then PowerMode.Dead
  else if s.lowPowerMode then PowerMode.LowPower
  else PowerMode.Normal

/-- `powerWatchDog()` (lines 155-182).  Takes the current state, the
`isUSBPowered()` reading, the single `readBatteryState()` reading of this
sample, and the value `millis()` would return inside `planDeepSleep`. -/
def powerWatchDog (s : OrchState) (usbPowered : Bool) (battery : Battery) (now : Nat) :
    OrchState × List Effect :=
  if s.batteryDead then (s, [])
  else
    let s1 : OrchState := { s with batteryCharging := usbPowered }
    let report : List Effect :=
      [Effect.readBattery, Effect.setBatteryLevel battery.level usbPowered]
    if usbPowered then
      ({ s1 with lowPowerMode := false }, report ++ [Effect.setLowPowerMode false])
    else if battery.voltage < POWER_DEAD_THRESHOLD then
      ({ s1 with deepSleepTime := now + 0, batteryDead := true },
        report ++ [Effect.setColor FColor.black FColorMode.TRANSITION 2500,
                   Effect.setPetalsOpenLevel 0 2500])
    else if s1.lowPowerMode = false ∧ battery.voltage < POWER_LOW_ENTER_THRESHOLD then
      ({ s1 with lowPowerMode := true }, report ++ [Effect.setLowPowerMode true])
    else if s1.lowPowerMode = true ∧ POWER_LOW_LEAVE_THRESHOLD ≤ battery.voltage then
      ({ s1 with lowPowerMode := false }, report ++ [Effect.setLowPowerMode false])
    else (s1, report)

/-- Inputs observed by one `setup()` run: boot-time `millis()`, the
`isUSBPowered()` reading, the first and the re-verification battery
readings (lines 79 and 82), the configuration flag and the wake cause. -/
structure SetupInputs where
  bootMillis : Nat
  usbPowered : Bool
  voltage1 : ℚ
  voltage2 : ℚ
  initRemoteOnStartup : Bool
  wasSleeping : Bool
deriving DecidableEq

/-- All globals start at their C++ initializers (lines 38-42). -/
def initialState : OrchState :=
  { batteryDead := false
    batteryCharging := false
    deepSleepTime := 0
    periodicOperationsTime := 0
    initRemoteTime := 0
    lowPowerMode := false
    halted := false }

/-- The tail of `setup()` taken on a non-dead battery (lines 94-107). -/
def normalBoot (s : OrchState) (i : SetupInputs) (reads : List Effect) :
    OrchState × List Effect :=
  ({ s with
      initRemoteTime :=
        if i.initRemoteOnStartup then i.bootMillis + REMOTE_INIT_TIMEOUT else 0
      periodicOperationsTime := i.bootMillis + PERIODIC_OPERATIONS_INTERVAL },
    reads ++ [Effect.initServo] ++
      (if i.wasSleeping then [] else [Effect.setPetalsOpenLevel 0 100]) ++
      [Effect.automatonInit])

/-- `setup()` (lines 49-108): the calibration battery read, the dead-battery
boot check with its re-verification read after `delay(500)`, and either the
dead-battery shutdown branch (lines 87-93) or normal boot (lines 94-107). -/
def setupRun (i : SetupInputs) : OrchState × List Effect :=
  let s0 : OrchState := { initialState with batteryCharging := i.usbPowered }
  if i.usbPowered then
    normalBoot s0 i [Effect.readBattery]
  else if i.voltage1 < POWER_DEAD_THRESHOLD then
    if i.voltage2 < POWER_DEAD_THRESHOLD then
      ({ s0 with
          batteryDead := true
          deepSleepTime := i.bootMillis + BATTERY_DEAD_WARNING_DURATION
          lowPowerMode := true },
        [Effect.readBattery, Effect.readBattery, Effect.readBattery,
         Effect.setLowPowerMode true,
         Effect.setColor FColor.red FColorMode.FLASH 1000])
    else
      normalBoot s0 i [Effect.readBattery, Effect.readBattery, Effect.readBattery]
  else
    normalBoot s0 i [Effect.readBattery, Effect.readBattery]

/-- Sensor values observed by one `loop()` iteration. -/
structure Inputs where
  now : Nat
  usbPowered : Bool
  battery : Battery
  isLit : Bool
  isIdle : Bool
  petalsMoving : Bool
  petalOpenLevel : Nat
  remoteConnected : Bool
deriving DecidableEq

/-- Lines 115-118: when the periodic deadline has elapsed, re-arm it and run
`periodicOperation()` = watchdog reset, `acty`, `powerWatchDog`. -/
def periodicPhase (s : OrchState) (inp : Inputs) : OrchState × List Effect :=
  if s.periodicOperationsTime ≠ 0 ∧ s.periodicOperationsTime < inp.now then
    let s1 : OrchState :=
      { s with periodicOperationsTime := inp.now + PERIODIC_OPERATIONS_INTERVAL }
    let r := powerWatchDog s1 inp.usbPowered inp.battery inp.now
    (r.1, [Effect.wdtReset, Effect.acty] ++ r.2)
  else (s, [])

/-- Lines 119-123: fire the deferred remote initialization. -/
def initRemotePhase (s : OrchState) (inp : Inputs) : OrchState × List Effect :=
  if s.initRemoteTime ≠ 0 ∧ s.initRemoteTime < inp.now then
    ({ s with initRemoteTime := 0 }, [Effect.remoteInit, Effect.startAdvertising])
  else (s, [])

/-- Lines 124-127: fire deep sleep when the deadline has strictly elapsed and
petals are not moving; `esp_deep_sleep_start()` never returns (`halted`). -/
def sleepFirePhase (s : OrchState) (inp : Inputs) : OrchState × List Effect :=
  if s.deepSleepTime ≠ 0 ∧ s.deepSleepTime < inp.now ∧ inp.petalsMoving = false then
    ({ s with deepSleepTime := 0, halted := true }, [Effect.enterDeepSleep])
  else (s, [])

/-- The five inactivity conditions of line 132. -/
def inactivityConditions (s : OrchState) (inp : Inputs) : Bool :=
  !s.batteryCharging && !inp.isLit && inp.isIdle &&
    (inp.petalOpenLevel == 0) && !inp.remoteConnected

/-- Lines 130-141: arm the inactivity deep-sleep deadline, keep it, or
cancel it. -/
def sleepPlanPhase (s : OrchState) (inp : Inputs) : OrchState :=
  if deepSleepEnabled = true ∧ s.batteryDead = false then
    if inactivityConditions s inp = true then
      if s.deepSleepTime = 0 then
        { s with deepSleepTime := inp.now + DEEP_SLEEP_INACTIVITY_TIMEOUT }
      else s
    else if s.deepSleepTime ≠ 0 then
      { s with deepSleepTime := 0 }
    else s
  else s

/-- One `loop()` iteration (lines 110-147).  A halted process executes
nothing; when the sleep-fire phase halts, the planning section is never
reached (the process is suspended inside `enterDeepSleep`). -/
def loopTick (s : OrchState) (inp : Inputs) : OrchState × List Effect :=
  if s.halted then (s, [])
  else
    let r1 := periodicPhase s inp
    let r2 := initRemotePhase r1.1 inp
    let r3 := sleepFirePhase r2.1 inp
    if r3.1.halted then (r3.1, r1.2 ++ r2.2 ++ r3.2)
    else (sleepPlanPhase r3.1 inp, r1.2 ++ r2.2 ++ r3.2)

/-- Run a sequence of loop iterations, collecting each iteration's
timestamp and emitted effects. -/
def runTrace (s : OrchState) : List Inputs → OrchState × List (Nat × List Effect)
  | [] => (s, [])
  | inp :: rest =>
    let r1 := loopTick s inp
    let r2 := runTrace r1.1 rest
    (r2.1, (inp.now, r1.2) :: r2.2)

/-- Run a sequence of bare periodic battery samples
(usbPowered, battery, now) through `powerWatchDog`. -/
def runSamples (s : OrchState) : List (Bool × Battery × Nat) → OrchState
  | [] => s
  | x :: rest => runSamples (powerWatchDog s x.1 x.2.1 x.2.2).1 rest

/-- Total number of `remoteInit` effects in a collected trace. -/
def countRemoteInit (tr : List (Nat × List Effect)) : Nat :=
  (tr.map (fun p => p.2.count Effect.remoteInit)).sum

/-- Loop timestamps are non-decreasing along the trace, starting from
`prev`. -/
def monoFrom (prev : Nat) : List Inputs → Bool
  | [] => true
  | inp :: rest => decide (prev ≤ inp.now) && monoFrom inp.now rest

/-- Loop timestamps are non-decreasing and consecutive iterations are at
most `d` milliseconds apart, starting from `prev`. -/
def gapsOK (d : Nat) : Nat → List Inputs → Bool
  | _, [] => true
  | prev, inp :: rest =>
    decide (prev ≤ inp.now) && decide (inp.now ≤ prev + d) && gapsOK d inp.now rest

/-- Checks, along a trace, that every watchdog reset happens within
`PERIODIC_OPERATIONS_INTERVAL + d` of the previous reset (`lastReset`),
and that an iteration without a reset is never more than
`PERIODIC_OPERATIONS_INTERVAL` past the previous reset.  Checking stops
once the process has suspended. -/
def wdtResetGapsOK (d : Nat) : OrchState → Nat → List Inputs → Bool
  | _, _, [] => true
  | s, lastReset, inp :: rest =>
    if s.halted then true
    else
      let r := loopTick s inp
      if Effect.wdtReset ∈ r.2 then
        decide (inp.now ≤ lastReset + PERIODIC_OPERATIONS_INTERVAL + d) &&
          wdtResetGapsOK d r.1 inp.now rest
      else
        decide (inp.now ≤ lastReset + PERIODIC_OPERATIONS_INTERVAL) &&
          wdtResetGapsOK d r.1 lastReset rest

/-! ## Concrete example states used by witnesses and counterexamples -/

/-- A running state after a normal boot at millis 0. -/
def sNormalEx : OrchState :=
  { batteryDead := false
    batteryCharging := false
    deepSleepTime := 0
    periodicOperationsTime := 3000
    initRemoteTime := 0
    lowPowerMode := false
    halted := false }

/-- A state in which the Dead power mode has been entered. -/
def sDeadEx : OrchState :=
  { batteryDead := true
    batteryCharging := false
    deepSleepTime := 5000
    periodicOperationsTime := 3000
    initRemoteTime := 0
    lowPowerMode := true
    halted := false }

/-! ## Helper lemmas -/

theorem powerWatchDog_dead (s : OrchState) (u : Bool) (b : Battery) (n : Nat)
    (h : s.batteryDead = true) : powerWatchDog s u b n = (s, []) := by
  simp [powerWatchDog, h]

theorem powerWatchDog_state (s : OrchState) (u : Bool) (b : Battery) (n : Nat) :
    (powerWatchDog s u b n).1.halted = s.halted ∧
      (powerWatchDog s u b n).1.initRemoteTime = s.initRemoteTime ∧
      (powerWatchDog s u b n).1.periodicOperationsTime = s.periodicOperationsTime := by
  simp only [powerWatchDog]
  split_ifs <;> simp

theorem initRemotePhase_state (s : OrchState) (inp : Inputs) :
    (initRemotePhase s inp).1.batteryDead = s.batteryDead ∧
      (initRemotePhase s inp).1.batteryCharging = s.batteryCharging ∧
      (initRemotePhase s inp).1.deepSleepTime = s.deepSleepTime ∧
      (initRemotePhase s inp).1.periodicOperationsTime = s.periodicOperationsTime ∧
      (initRemotePhase s inp).1.lowPowerMode = s.lowPowerMode ∧
      (initRemotePhase s inp).1.halted = s.halted := by
  unfold initRemotePhase
  split_ifs <;> simp

theorem sleepFirePhase_state (s : OrchState) (inp : Inputs) :
    (sleepFirePhase s inp).1.batteryDead = s.batteryDead ∧
      (sleepFirePhase s inp).1.batteryCharging = s.batteryCharging ∧
      (sleepFirePhase s inp).1.periodicOperationsTime = s.periodicOperationsTime ∧
      (sleepFirePhase s inp).1.initRemoteTime = s.initRemoteTime ∧
      (sleepFirePhase s inp).1.lowPowerMode = s.lowPowerMode := by
  unfold sleepFirePhase
  split_ifs <;> simp

theorem sleepPlanPhase_state (s : OrchState) (inp : Inputs) :
    (sleepPlanPhase s inp).batteryDead = s.batteryDead ∧
      (sleepPlanPhase s inp).batteryCharging = s.batteryCharging ∧
      (sleepPlanPhase s inp).periodicOperationsTime = s.periodicOperationsTime ∧
      (sleepPlanPhase s inp).initRemoteTime = s.initRemoteTime ∧
      (sleepPlanPhase s inp).lowPowerMode = s.lowPowerMode ∧
      (sleepPlanPhase s inp).halted = s.halted := by
  unfold sleepPlanPhase
  split_ifs <;> simp

theorem periodicPhase_state (s : OrchState) (inp : Inputs) :
    (periodicPhase s inp).1.halted = s.halted ∧
      (periodicPhase s inp).1.initRemoteTime = s.initRemoteTime := by
  unfold periodicPhase
  split_ifs with hc
  · have h1 := powerWatchDog_state
      { s with periodicOperationsTime := inp.now + PERIODIC_OPERATIONS_INTERVAL }
      inp.usbPowered inp.battery inp.now
    simpa using ⟨h1.1, h1.2.1⟩
  · exact ⟨rfl, rfl⟩

/-- The three timer phases of one iteration, composed. -/
def tickC (s : OrchState) (inp : Inputs) : OrchState × List Effect :=
  sleepFirePhase (initRemotePhase (periodicPhase s inp).1 inp).1 inp

theorem loopTick_unhalted (s : OrchState) (inp : Inputs) (h : s.halted = false) :
    loopTick s inp =
      ((if (tickC s inp).1.halted = true then (tickC s inp).1
        else sleepPlanPhase (tickC s inp).1 inp),
        (periodicPhase s inp).2 ++ (initRemotePhase (periodicPhase s inp).1 inp).2 ++
          (tickC s inp).2) := by
  simp only [loopTick, tickC, h]
  split_ifs <;> simp_all

theorem periodicPhase_dead (s : OrchState) (inp : Inputs) (h : s.batteryDead = true) :
    (periodicPhase s inp).1.batteryDead = true ∧
      (periodicPhase s inp).1.lowPowerMode = s.lowPowerMode ∧
      (periodicPhase s inp).2 = [Effect.wdtReset, Effect.acty] ∨
    periodicPhase s inp = (s, []) := by
  simp only [periodicPhase]
  split_ifs with hc
  · left
    rw [powerWatchDog_dead _ _ _ _ (by simpa using h)]
    simpa using h
  · right
    rfl

theorem loopTick_dead (s : OrchState) (inp : Inputs) (h : s.batteryDead = true) :
    (loopTick s inp).1.batteryDead = true ∧
      (loopTick s inp).1.lowPowerMode = s.lowPowerMode := by
  by_cases hh : s.halted = true
  · simp [loopTick, hh, h]
  · rw [loopTick_unhalted s inp (by simpa using hh)]
    have hA : (periodicPhase s inp).1.batteryDead = true ∧
        (periodicPhase s inp).1.lowPowerMode = s.lowPowerMode := by
      rcases periodicPhase_dead s inp h with ⟨h1, h2, _⟩ | heq
      · exact ⟨h1, h2⟩
      · rw [heq]
        exact ⟨h, rfl⟩
    have hB := initRemotePhase_state (periodicPhase s inp).1 inp
    have hC := sleepFirePhase_state (initRemotePhase (periodicPhase s inp).1 inp).1 inp
    have hCd : (tickC s inp).1.batteryDead = true := by
      simp only [tickC]
      rw [hC.1, hB.1, hA.1]
    have hCl : (tickC s inp).1.lowPowerMode = s.lowPowerMode := by
      simp only [tickC]
      rw [hC.2.2.2.2, hB.2.2.2.2.1, hA.2]
    have hD := sleepPlanPhase_state (tickC s inp).1 inp
    split_ifs <;> simp_all

theorem powerWatchDog_lowPower_establish (s : OrchState) (u : Bool) (b : Battery)
    (n : Nat) (h : (0:ℚ) ≤ b.voltage) :
    Effect.setLowPowerMode true ∉ (powerWatchDog s u b n).2 ∧
      ((powerWatchDog s u b n).1.lowPowerMode = true → s.lowPowerMode = true) := by
  simp only [powerWatchDog]
  split_ifs with h1 h2 h3 h4 h5 <;>
    simp_all [POWER_LOW_ENTER_THRESHOLD] <;>
    exact absurd (lt_of_le_of_lt h h4.2) (lt_irrefl 0)

/-! ## Claim C1 -/

/-- C1: Dead mode is terminal.  Once `batteryDead` is true, a periodic
battery sample returns immediately with no state change and no collaborator
calls (no threshold branch is evaluated), and along any subsequent sequence
of loop iterations the mode stays Dead and the low-power flag never
changes. -/
theorem dead_mode_terminal (s : OrchState) (u : Bool) (b : Battery) (n : Nat)
    (inps : List Inputs) (h : s.batteryDead = true) :
    powerWatchDog s u b n = (s, []) ∧
      (runTrace s inps).1.batteryDead = true ∧
      (runTrace s inps).1.lowPowerMode = s.lowPowerMode := by
  refine ⟨powerWatchDog_dead s u b n h, ?_⟩
  induction inps generalizing s with
  | nil => exact ⟨h, rfl⟩
  | cons inp rest ih =>
    have hstep := loopTick_dead s inp h
    have htail := ih (loopTick s inp).1 hstep.1
    simp only [runTrace]
    exact ⟨htail.1, htail.2.trans hstep.2⟩

/-- Witness for C1 at a concrete dead state and a concrete two-iteration
trace. -/
theorem dead_mode_terminal_witness :
    powerWatchDog sDeadEx false ⟨mkRat 33 10, 10⟩ 7 = (sDeadEx, []) ∧
      (runTrace sDeadEx
        [⟨6000, false, ⟨mkRat 33 10, 10⟩, false, true, false, 0, false⟩,
         ⟨9500, true, ⟨mkRat 39 10, 90⟩, false, true, false, 0, false⟩]).1.batteryDead = true ∧
      (runTrace sDeadEx
        [⟨6000, false, ⟨mkRat 33 10, 10⟩, false, true, false, 0, false⟩,
         ⟨9500, true, ⟨mkRat 39 10, 90⟩, false, true, false, 0, false⟩]).1.lowPowerMode =
        sDeadEx.lowPowerMode :=
  dead_mode_terminal sDeadEx false ⟨mkRat 33 10, 10⟩ 7
    [⟨6000, false, ⟨mkRat 33 10, 10⟩, false, true, false, 0, false⟩,
     ⟨9500, true, ⟨mkRat 39 10, 90⟩, false, true, false, 0, false⟩] rfl

/-! ## Claim C6 -/

/-- C6 (amended): a periodic sample taken while external power is present
and the battery is not already dead sets the mode to Normal, clears the
low-power flag, and takes neither the dead branch nor the low-power-enter
branch (the emitted effects are exactly the status report and the
low-power clear). -/
theorem charging_sample_normal (s : OrchState) (b : Battery) (n : Nat)
    (h : s.batteryDead = false) :
    powerMode (powerWatchDog s true b n).1 = PowerMode.Normal ∧
      (powerWatchDog s true b n).1.lowPowerMode = false ∧
      (powerWatchDog s true b n).1.batteryDead = false ∧
      (powerWatchDog s true b n).2 =
        [Effect.readBattery, Effect.setBatteryLevel b.level true,
         Effect.setLowPowerMode false] := by
  simp [powerWatchDog, powerMode, h]

/-- Witness for C6 (amended) at a concrete low-power state. -/
theorem charging_sample_normal_witness :
    powerMode (powerWatchDog { sNormalEx with lowPowerMode := true } true ⟨2, 15⟩ 6100).1 =
        PowerMode.Normal ∧
      (powerWatchDog { sNormalEx with lowPowerMode := true } true ⟨2, 15⟩ 6100).1.lowPowerMode =
        false ∧
      (powerWatchDog { sNormalEx with lowPowerMode := true } true ⟨2, 15⟩ 6100).1.batteryDead =
        false ∧
      (powerWatchDog { sNormalEx with lowPowerMode := true } true ⟨2, 15⟩ 6100).2 =
        [Effect.readBattery, Effect.setBatteryLevel 15 true, Effect.setLowPowerMode false] :=
  charging_sample_normal { sNormalEx with lowPowerMode := true } ⟨2, 15⟩ 6100 rfl

/-- Counterexample to C6 as stated: with prior mode Dead, a sample taken on
external power leaves the mode Dead (the watchdog returns before the
charging branch) instead of making it Normal. -/
theorem charging_sample_dead_counterexample :
    powerWatchDog sDeadEx true ⟨4, 80⟩ 9000 = (sDeadEx, []) ∧
      powerMode (powerWatchDog sDeadEx true ⟨4, 80⟩ 9000).1 = PowerMode.Dead := by
  constructor
  · exact powerWatchDog_dead sDeadEx true ⟨4, 80⟩ 9000 rfl
  · rfl

/-! ## Claim C7 -/

/-- C7 (amended): every periodic battery sample taken while the battery is
not dead forwards the sampled level together with the externally-powered
flag to the wireless collaborator. -/
theorem sample_reports_battery (s : OrchState) (u : Bool) (b : Battery) (n : Nat)
    (h : s.batteryDead = false) :
    Effect.setBatteryLevel b.level u ∈ (powerWatchDog s u b n).2 := by
  simp only [powerWatchDog, h]
  split_ifs <;> simp_all

/-- Witness for C7 (amended) at a concrete state. -/
theorem sample_reports_battery_witness :
    Effect.setBatteryLevel 42 false ∈ (powerWatchDog sNormalEx false ⟨mkRat 37 10, 42⟩ 6100).2 :=
  sample_reports_battery sNormalEx false ⟨mkRat 37 10, 42⟩ 6100 rfl

/-- Counterexample to C7 as stated: in Dead mode the sample forwards
nothing to the wireless collaborator (the effect list is empty). -/
theorem sample_reports_battery_counterexample :
    (powerWatchDog sDeadEx false ⟨3, 50⟩ 12000).2 = [] ∧
      Effect.setBatteryLevel 50 false ∉ (powerWatchDog sDeadEx false ⟨3, 50⟩ 12000).2 := by
  constructor
  · rfl
  · intro hmem
    rw [(powerWatchDog_dead sDeadEx false ⟨3, 50⟩ 12000 rfl)] at hmem
    simp at hmem

/-! ## Claim C10 -/

/-- C10: with the shipped thresholds (both 0), a runtime periodic sample
with non-negative voltage never takes the low-power-enter branch: it never
emits `setLowPowerMode true` and never turns the low-power flag from false
to true; and at boot, `setLowPowerMode true` is emitted only on the
dead-battery path. -/
theorem runtime_never_enters_lowpower (s : OrchState) (u : Bool) (b : Battery)
    (n : Nat) (i : SetupInputs) (h : (0:ℚ) ≤ b.voltage) :
    Effect.setLowPowerMode true ∉ (powerWatchDog s u b n).2 ∧
      ((powerWatchDog s u b n).1.lowPowerMode = true → s.lowPowerMode = true) ∧
      (Effect.setLowPowerMode true ∈ (setupRun i).2 → (setupRun i).1.batteryDead = true) := by
  refine ⟨(powerWatchDog_lowPower_establish s u b n h).1,
    (powerWatchDog_lowPower_establish s u b n h).2, ?_⟩
  simp only [setupRun, normalBoot]
  split_ifs <;> simp

/-- Witness for C10 at a concrete state, sample and boot input. -/
theorem runtime_never_enters_lowpower_witness :
    Effect.setLowPowerMode true ∉ (powerWatchDog sNormalEx false ⟨mkRat 1 10, 2⟩ 6100).2 ∧
      ((powerWatchDog sNormalEx false ⟨mkRat 1 10, 2⟩ 6100).1.lowPowerMode = true →
        sNormalEx.lowPowerMode = true) ∧
      (Effect.setLowPowerMode true ∈ (setupRun ⟨0, false, mkRat 38 10, mkRat 38 10, true, false⟩).2 →
        (setupRun ⟨0, false, mkRat 38 10, mkRat 38 10, true, false⟩).1.batteryDead = true) :=
  runtime_never_enters_lowpower sNormalEx false ⟨mkRat 1 10, 2⟩ 6100
    ⟨0, false, mkRat 38 10, mkRat 38 10, true, false⟩ (by decide)

/-! ## Claim C2 -/

/-- C2 (amended): the boot-time check commits to Dead only when the first
reading is below `POWER_DEAD_THRESHOLD` and the re-verification reading
taken after the settle delay is also below it; a periodic runtime sample,
by contrast, commits to Dead on a single sub-threshold reading. -/
theorem dead_commit_verification (i : SetupInputs) (s : OrchState) (b : Battery)
    (n : Nat) :
    ((setupRun i).1.batteryDead = true ↔
      (i.usbPowered = false ∧ i.voltage1 < POWER_DEAD_THRESHOLD ∧
        i.voltage2 < POWER_DEAD_THRESHOLD)) ∧
      (s.batteryDead = false → b.voltage < POWER_DEAD_THRESHOLD →
        (powerWatchDog s false b n).1.batteryDead = true ∧
          (powerWatchDog s false b n).2.count Effect.readBattery = 1) := by
  constructor
  · simp only [setupRun, normalBoot, initialState]
    split_ifs with h1 h2 h3 <;> simp_all
  · intro h1 h2
    simp [powerWatchDog, h1, h2, List.count_cons]

/-- Witness for C2 (amended): a dead-battery boot at 3.3V twice, and a
runtime sample at 3.3V. -/
theorem dead_commit_verification_witness :
    ((setupRun ⟨100, false, mkRat 33 10, mkRat 33 10, false, false⟩).1.batteryDead = true ↔
      ((false : Bool) = false ∧ (mkRat 33 10 : ℚ) < POWER_DEAD_THRESHOLD ∧
        (mkRat 33 10 : ℚ) < POWER_DEAD_THRESHOLD)) ∧
      ((powerWatchDog sNormalEx false ⟨mkRat 33 10, 20⟩ 5000).1.batteryDead = true ∧
        (powerWatchDog sNormalEx false ⟨mkRat 33 10, 20⟩ 5000).2.count Effect.readBattery = 1) :=
  ⟨(dead_commit_verification ⟨100, false, mkRat 33 10, mkRat 33 10, false, false⟩ sNormalEx
      ⟨mkRat 33 10, 20⟩ 5000).1,
    (dead_commit_verification ⟨100, false, mkRat 33 10, mkRat 33 10, false, false⟩ sNormalEx
      ⟨mkRat 33 10, 20⟩ 5000).2 rfl (by decide)⟩

/-- Counterexample to C2 as stated: a periodic runtime sample reading
3.31V commits to Dead with exactly one battery reading — no second
confirming read precedes the commitment. -/
theorem dead_commit_single_read_counterexample :
    (powerWatchDog sNormalEx false ⟨mkRat 331 100, 17⟩ 4000).1.batteryDead = true ∧
      (powerWatchDog sNormalEx false ⟨mkRat 331 100, 17⟩ 4000).2.count Effect.readBattery = 1 := by
  decide

/-! ## Claim C3 -/

theorem runSamples_lowPower (l : List (Bool × Battery × Nat)) :
    ∀ s : OrchState, (∀ x ∈ l, (0:ℚ) ≤ x.2.1.voltage) → s.lowPowerMode = false →
      (runSamples s l).lowPowerMode = false := by
  induction l with
  | nil =>
    intro s _ h0
    exact h0
  | cons x rest ih =>
    intro s hv h0
    have hx := powerWatchDog_lowPower_establish s x.1 x.2.1 x.2.2 (hv x (by simp))
    have hstep : (powerWatchDog s x.1 x.2.1 x.2.2).1.lowPowerMode = false := by
      cases hlp : (powerWatchDog s x.1 x.2.1 x.2.2).1.lowPowerMode
      · rfl
      · exact absurd (hx.2 hlp) (by simp [h0])
    exact ih _ (fun y hy => hv y (List.mem_cons_of_mem x hy)) hstep

/-- C3 (amended): the shipped thresholds are equal (both 0), so there is no
strict hysteresis gap; the no-oscillation consequence nevertheless holds:
along any sequence of periodic samples with non-negative voltages, a device
not in low-power mode never enters it, so the mode cannot toggle between
Normal and LowPower. -/
theorem thresholds_equal_no_toggle (s : OrchState) (l : List (Bool × Battery × Nat))
    (hv : ∀ x ∈ l, (0:ℚ) ≤ x.2.1.voltage) (h0 : s.lowPowerMode = false) :
    POWER_LOW_ENTER_THRESHOLD = POWER_LOW_LEAVE_THRESHOLD ∧
      (runSamples s l).lowPowerMode = false :=
  ⟨rfl, runSamples_lowPower l s hv h0⟩

/-- Witness for C3 (amended) on a concrete two-sample run. -/
theorem thresholds_equal_no_toggle_witness :
    POWER_LOW_ENTER_THRESHOLD = POWER_LOW_LEAVE_THRESHOLD ∧
      (runSamples sNormalEx
        [(false, ⟨mkRat 36 10, 60⟩, 3100), (false, ⟨mkRat 35 10, 55⟩, 6200)]).lowPowerMode = false :=
  thresholds_equal_no_toggle sNormalEx
    [(false, ⟨mkRat 36 10, 60⟩, 3100), (false, ⟨mkRat 35 10, 55⟩, 6200)] (by decide) rfl

/-- Counterexample to C3 as stated: `POWER_LOW_LEAVE_THRESHOLD` is not
strictly greater than `POWER_LOW_ENTER_THRESHOLD` (both are 0). -/
theorem hysteresis_gap_counterexample :
    ¬ POWER_LOW_ENTER_THRESHOLD < POWER_LOW_LEAVE_THRESHOLD := by
  decide

/-! ## Claim C4 -/

/-- C4: with deep sleep enabled and the battery not dead, after the
sleep-planning section of a loop iteration the deadline is armed exactly
when the five inactivity conditions all hold; a previously unarmed deadline
is armed at `now + DEEP_SLEEP_INACTIVITY_TIMEOUT`, an armed one is kept
unchanged, and the first iteration on which any condition fails cancels an
armed deadline. -/
theorem sleep_arm_iff_inactive (s : OrchState) (inp : Inputs)
    (h : s.batteryDead = false) :
    deepSleepEnabled = true ∧
      ((sleepPlanPhase s inp).deepSleepTime ≠ 0 ↔ inactivityConditions s inp = true) ∧
      (inactivityConditions s inp = true → s.deepSleepTime = 0 →
        (sleepPlanPhase s inp).deepSleepTime = inp.now + DEEP_SLEEP_INACTIVITY_TIMEOUT) ∧
      (inactivityConditions s inp = true → s.deepSleepTime ≠ 0 →
        sleepPlanPhase s inp = s) ∧
      (inactivityConditions s inp = false → (sleepPlanPhase s inp).deepSleepTime = 0) := by
  refine ⟨rfl, ?_, ?_, ?_, ?_⟩
  · simp only [sleepPlanPhase, deepSleepEnabled]
    split_ifs with ha hb hc <;>
      simp_all [DEEP_SLEEP_INACTIVITY_TIMEOUT]
  · intro hcond hzero
    simp [sleepPlanPhase, deepSleepEnabled, h, hcond, hzero]
  · intro hcond hnz
    simp [sleepPlanPhase, deepSleepEnabled, h, hcond, hnz]
  · intro hcond
    simp only [sleepPlanPhase, deepSleepEnabled]
    split_ifs <;> simp_all

/-- Witness for C4 at a concrete inactive state. -/
theorem sleep_arm_iff_inactive_witness :
    deepSleepEnabled = true ∧
      ((sleepPlanPhase sNormalEx ⟨4000, false, ⟨mkRat 37 10, 40⟩, false, true, false, 0, false⟩).deepSleepTime ≠ 0 ↔
        inactivityConditions sNormalEx ⟨4000, false, ⟨mkRat 37 10, 40⟩, false, true, false, 0, false⟩ = true) ∧
      (inactivityConditions sNormalEx ⟨4000, false, ⟨mkRat 37 10, 40⟩, false, true, false, 0, false⟩ = true →
        sNormalEx.deepSleepTime = 0 →
        (sleepPlanPhase sNormalEx ⟨4000, false, ⟨mkRat 37 10, 40⟩, false, true, false, 0, false⟩).deepSleepTime =
          4000 + DEEP_SLEEP_INACTIVITY_TIMEOUT) ∧
      (inactivityConditions sNormalEx ⟨4000, false, ⟨mkRat 37 10, 40⟩, false, true, false, 0, false⟩ = true →
        sNormalEx.deepSleepTime ≠ 0 →
        sleepPlanPhase sNormalEx ⟨4000, false, ⟨mkRat 37 10, 40⟩, false, true, false, 0, false⟩ = sNormalEx) ∧
      (inactivityConditions sNormalEx ⟨4000, false, ⟨mkRat 37 10, 40⟩, false, true, false, 0, false⟩ = false →
        (sleepPlanPhase sNormalEx ⟨4000, false, ⟨mkRat 37 10, 40⟩, false, true, false, 0, false⟩).deepSleepTime = 0) :=
  sleep_arm_iff_inactive sNormalEx ⟨4000, false, ⟨mkRat 37 10, 40⟩, false, true, false, 0, false⟩ rfl

/-! ## Claim C5 -/

theorem initRemotePhase_cases (s : OrchState) (inp : Inputs) :
    initRemotePhase s inp = (s, []) ∨
      initRemotePhase s inp =
        ({ s with initRemoteTime := 0 }, [Effect.remoteInit, Effect.startAdvertising]) := by
  simp only [initRemotePhase]
  split_ifs <;> simp

theorem sleepPlanPhase_dead (s : OrchState) (inp : Inputs) (h : s.batteryDead = true) :
    sleepPlanPhase s inp = s := by
  simp [sleepPlanPhase, h]

theorem sleepFirePhase_nofire (s : OrchState) (inp : Inputs)
    (h : ¬ s.deepSleepTime < inp.now) : sleepFirePhase s inp = (s, []) := by
  rw [sleepFirePhase, if_neg]
  intro hc
  exact h hc.2.1

/-- C5 (amended): the sleep scheduler fires only strictly after the armed
deadline: when a deadline is armed and `deadline < now` and petals are not
moving, the fire phase unarms the deadline and then invokes the suspend
action.  A deadline armed with timeout 0 during the same iteration's
periodic power evaluation does not fire within that iteration (it equals
the iteration's `now`, which is not strictly past): the iteration ends
unhalted with the deadline armed at `now`, so the fire happens on a later
iteration. -/
theorem sleep_fire_strict (t s : OrchState) (jnp inp : Inputs)
    (hf1 : t.deepSleepTime ≠ 0) (hf2 : t.deepSleepTime < jnp.now)
    (hf3 : jnp.petalsMoving = false)
    (h1 : s.halted = false) (h2 : s.batteryDead = false)
    (h3 : s.periodicOperationsTime ≠ 0) (h4 : s.periodicOperationsTime < inp.now)
    (h5 : inp.usbPowered = false) (h6 : inp.battery.voltage < POWER_DEAD_THRESHOLD) :
    sleepFirePhase t jnp =
        ({ t with deepSleepTime := 0, halted := true }, [Effect.enterDeepSleep]) ∧
      Effect.enterDeepSleep ∉ (loopTick s inp).2 ∧
      (loopTick s inp).1.deepSleepTime = inp.now ∧
      (loopTick s inp).1.halted = false := by
  refine ⟨by simp [sleepFirePhase, hf1, hf2, hf3], ?_⟩
  have hA : periodicPhase s inp =
      ({ s with
          batteryCharging := false
          deepSleepTime := inp.now
          periodicOperationsTime := inp.now + PERIODIC_OPERATIONS_INTERVAL
          batteryDead := true },
        [Effect.wdtReset, Effect.acty, Effect.readBattery,
         Effect.setBatteryLevel inp.battery.level false,
         Effect.setColor FColor.black FColorMode.TRANSITION 2500,
         Effect.setPetalsOpenLevel 0 2500]) := by
    rw [periodicPhase, if_pos ⟨h3, h4⟩]
    simp only [powerWatchDog, h5, h2]
    simp [h6]
  rw [loopTick_unhalted s inp h1, tickC, hA]
  rcases initRemotePhase_cases (periodicPhase s inp).1 inp with hB | hB <;>
    rw [hA] at hB <;> rw [hB] <;>
    · rw [sleepFirePhase_nofire _ inp (by simp), sleepPlanPhase_dead _ inp (by simp)]
      simp [h1]

/-- Witness for C5 (amended) at concrete states: an armed deadline 5000
fired at now 6000, and a dead-battery periodic commit at now 4000 that does
not fire in its own iteration. -/
theorem sleep_fire_strict_witness :
    sleepFirePhase { sNormalEx with deepSleepTime := 5000 }
        ⟨6000, false, ⟨4, 80⟩, false, true, false, 0, false⟩ =
        ({ sNormalEx with deepSleepTime := 0, halted := true }, [Effect.enterDeepSleep]) ∧
      Effect.enterDeepSleep ∉
        (loopTick sNormalEx ⟨4000, false, ⟨mkRat 33 10, 22⟩, false, true, false, 0, false⟩).2 ∧
      (loopTick sNormalEx ⟨4000, false, ⟨mkRat 33 10, 22⟩, false, true, false, 0, false⟩).1.deepSleepTime =
        4000 ∧
      (loopTick sNormalEx ⟨4000, false, ⟨mkRat 33 10, 22⟩, false, true, false, 0, false⟩).1.halted =
        false :=
  sleep_fire_strict { sNormalEx with deepSleepTime := 5000 } sNormalEx
    ⟨6000, false, ⟨4, 80⟩, false, true, false, 0, false⟩
    ⟨4000, false, ⟨mkRat 33 10, 22⟩, false, true, false, 0, false⟩
    (by decide) (by decide) rfl rfl rfl (by decide) (by decide) rfl (by decide)

/-- Counterexample to C5 as stated: a deadline armed at 5000, observed at
`now = 5000` (so `now ≥ deadline`) with petals not moving, does not fire:
the iteration emits no suspend, does not halt, and leaves the deadline
armed. -/
theorem sleep_no_fire_at_exact_deadline_counterexample :
    (5000:Nat) ≤ 5000 ∧
      (loopTick { sNormalEx with deepSleepTime := 5000, periodicOperationsTime := 6000 }
        ⟨5000, false, ⟨4, 80⟩, false, true, false, 0, false⟩).2 = [] ∧
      (loopTick { sNormalEx with deepSleepTime := 5000, periodicOperationsTime := 6000 }
        ⟨5000, false, ⟨4, 80⟩, false, true, false, 0, false⟩).1.halted = false ∧
      (loopTick { sNormalEx with deepSleepTime := 5000, periodicOperationsTime := 6000 }
        ⟨5000, false, ⟨4, 80⟩, false, true, false, 0, false⟩).1.deepSleepTime = 5000 := by
  decide

/-! ## Claim C8 -/

theorem powerWatchDog_no_wdtReset (s : OrchState) (u : Bool) (b : Battery) (n : Nat) :
    Effect.wdtReset ∉ (powerWatchDog s u b n).2 := by
  simp only [powerWatchDog]
  split_ifs <;> simp

theorem sleepFirePhase_cases (s : OrchState) (inp : Inputs) :
    sleepFirePhase s inp = (s, []) ∨
      sleepFirePhase s inp =
        ({ s with deepSleepTime := 0, halted := true }, [Effect.enterDeepSleep]) := by
  simp only [sleepFirePhase]
  split_ifs <;> simp

theorem periodicPhase_wdt_mem (s : OrchState) (inp : Inputs) :
    Effect.wdtReset ∈ (periodicPhase s inp).2 ↔
      s.periodicOperationsTime ≠ 0 ∧ s.periodicOperationsTime < inp.now := by
  simp only [periodicPhase]
  split_ifs with hc <;> simp [hc]

theorem loopTick_wdt_mem (s : OrchState) (inp : Inputs) (h : s.halted = false) :
    Effect.wdtReset ∈ (loopTick s inp).2 ↔
      s.periodicOperationsTime ≠ 0 ∧ s.periodicOperationsTime < inp.now := by
  rw [loopTick_unhalted s inp h]
  simp only [List.mem_append]
  constructor
  · rintro ((hm | hm) | hm)
    · exact (periodicPhase_wdt_mem s inp).mp hm
    · rcases initRemotePhase_cases (periodicPhase s inp).1 inp with hB | hB <;>
        rw [hB] at hm <;> simp at hm
    · rcases sleepFirePhase_cases (initRemotePhase (periodicPhase s inp).1 inp).1 inp
        with hC | hC <;> rw [tickC, hC] at hm <;> simp at hm
  · intro hc
    exact Or.inl (Or.inl ((periodicPhase_wdt_mem s inp).mpr hc))

theorem periodicPhase_pot (s : OrchState) (inp : Inputs) :
    (periodicPhase s inp).1.periodicOperationsTime =
      if s.periodicOperationsTime ≠ 0 ∧ s.periodicOperationsTime < inp.now
      then inp.now + PERIODIC_OPERATIONS_INTERVAL
      else s.periodicOperationsTime := by
  simp only [periodicPhase]
  split_ifs with hc
  · have h1 := (powerWatchDog_state
      { s with periodicOperationsTime := inp.now + PERIODIC_OPERATIONS_INTERVAL }
      inp.usbPowered inp.battery inp.now).2.2
    simpa using h1
  · rfl

theorem loopTick_pot (s : OrchState) (inp : Inputs) (h : s.halted = false) :
    (loopTick s inp).1.periodicOperationsTime =
      (periodicPhase s inp).1.periodicOperationsTime := by
  rw [loopTick_unhalted s inp h]
  have hB := (initRemotePhase_state (periodicPhase s inp).1 inp).2.2.2.1
  have hC := (sleepFirePhase_state (initRemotePhase (periodicPhase s inp).1 inp).1 inp).2.2.1
  have hD := (sleepPlanPhase_state (tickC s inp).1 inp).2.2.1
  split_ifs
  · rw [tickC, hC, hB]
  · rw [hD, tickC, hC, hB]

theorem wdtResetGapsOK_of_inv (d : Nat) (inps : List Inputs) :
    ∀ (s : OrchState) (lastReset prev : Nat),
      s.periodicOperationsTime ≠ 0 →
      s.periodicOperationsTime ≤ lastReset + PERIODIC_OPERATIONS_INTERVAL →
      prev ≤ s.periodicOperationsTime →
      gapsOK d prev inps = true →
      wdtResetGapsOK d s lastReset inps = true := by
  induction inps with
  | nil =>
    intro s lr prev _ _ _ _
    rfl
  | cons inp rest ih =>
    intro s lr prev hpot0 hpot hprev hgaps
    have hg : (prev ≤ inp.now ∧ inp.now ≤ prev + d) ∧ gapsOK d inp.now rest = true := by
      simpa [gapsOK, Bool.and_eq_true, decide_eq_true_eq, and_assoc] using hgaps
    obtain ⟨⟨hp1, hp2⟩, hrest⟩ := hg
    by_cases hhalt : s.halted = true
    · simp [wdtResetGapsOK, hhalt]
    · have hhf : s.halted = false := by simpa using hhalt
      simp only [wdtResetGapsOK, hhf, Bool.false_eq_true, if_false]
      by_cases hfire : s.periodicOperationsTime ≠ 0 ∧ s.periodicOperationsTime < inp.now
      · rw [if_pos ((loopTick_wdt_mem s inp hhf).mpr hfire)]
        refine Bool.and_eq_true_iff.mpr ⟨decide_eq_true (by omega), ?_⟩
        have hP : 0 < PERIODIC_OPERATIONS_INTERVAL := by decide
        refine ih (loopTick s inp).1 inp.now inp.now ?_ ?_ ?_ hrest <;>
          rw [loopTick_pot s inp hhf, periodicPhase_pot, if_pos hfire] <;> omega
      · rw [if_neg (fun hm => hfire ((loopTick_wdt_mem s inp hhf).mp hm))]
        have hnlt : ¬ s.periodicOperationsTime < inp.now := fun hlt => hfire ⟨hpot0, hlt⟩
        refine Bool.and_eq_true_iff.mpr ⟨decide_eq_true (by omega), ?_⟩
        refine ih (loopTick s inp).1 lr inp.now ?_ ?_ ?_ hrest <;>
          rw [loopTick_pot s inp hhf, periodicPhase_pot, if_neg hfire]
        · exact hpot0
        · exact hpot
        · omega

/-- C8 (amended): after a boot in which the periodic deadline was armed
(a non-dead boot), along any run of loop iterations whose timestamps are
non-decreasing with consecutive gaps at most `d`, every watchdog reset
occurs within `PERIODIC_OPERATIONS_INTERVAL + d` of the previous one
(counting the boot arming point), and an iteration without a reset is never
more than `PERIODIC_OPERATIONS_INTERVAL` past the previous reset; moreover
the configured watchdog timeout exceeds the periodic interval
(`WDT_TIMEOUT * 1000 > PERIODIC_OPERATIONS_INTERVAL`). -/
theorem wdt_reset_gap_bound (d lastReset prev : Nat) (s : OrchState)
    (inps : List Inputs)
    (hpot0 : s.periodicOperationsTime ≠ 0)
    (hpot : s.periodicOperationsTime ≤ lastReset + PERIODIC_OPERATIONS_INTERVAL)
    (hprev : prev ≤ s.periodicOperationsTime)
    (hgaps : gapsOK d prev inps = true) :
    wdtResetGapsOK d s lastReset inps = true ∧
      WDT_TIMEOUT * 1000 > PERIODIC_OPERATIONS_INTERVAL :=
  ⟨wdtResetGapsOK_of_inv d inps s lastReset prev hpot0 hpot hprev hgaps, by decide⟩

/-- Witness for C8 (amended): a normal boot at millis 0 followed by four
iterations at 500, 1500, 2500 and 3200 ms with gap bound 1000 ms. -/
theorem wdt_reset_gap_bound_witness :
    wdtResetGapsOK 1000 (setupRun ⟨0, false, 4, 4, true, false⟩).1 0
        [⟨500, false, ⟨4, 80⟩, false, true, false, 0, false⟩,
         ⟨1500, false, ⟨4, 80⟩, false, true, false, 0, false⟩,
         ⟨2500, false, ⟨4, 80⟩, false, true, false, 0, false⟩,
         ⟨3200, false, ⟨4, 80⟩, false, true, false, 0, false⟩] = true ∧
      WDT_TIMEOUT * 1000 > PERIODIC_OPERATIONS_INTERVAL :=
  wdt_reset_gap_bound 1000 0 0 (setupRun ⟨0, false, 4, 4, true, false⟩).1
    [⟨500, false, ⟨4, 80⟩, false, true, false, 0, false⟩,
     ⟨1500, false, ⟨4, 80⟩, false, true, false, 0, false⟩,
     ⟨2500, false, ⟨4, 80⟩, false, true, false, 0, false⟩,
     ⟨3200, false, ⟨4, 80⟩, false, true, false, 0, false⟩]
    (by decide) (by decide) (by decide) (by decide)

/-- Counterexample to C8 as stated: after a dead-battery boot the periodic
deadline is never armed (`periodicOperationsTime` stays 0), so even with
densely spaced iterations the watchdog is never reset after setup: an
iteration at 3500 ms lies more than `PERIODIC_OPERATIONS_INTERVAL` past
the boot point with no reset having occurred. -/
theorem wdt_dead_boot_counterexample :
    (setupRun ⟨0, false, mkRat 33 10, mkRat 33 10, true, false⟩).1.batteryDead = true ∧
      gapsOK 1000 0
        [⟨1000, false, ⟨mkRat 33 10, 5⟩, false, true, false, 0, false⟩,
         ⟨2000, false, ⟨mkRat 33 10, 5⟩, false, true, false, 0, false⟩,
         ⟨3000, false, ⟨mkRat 33 10, 5⟩, false, true, false, 0, false⟩,
         ⟨3500, false, ⟨mkRat 33 10, 5⟩, false, true, false, 0, false⟩] = true ∧
      wdtResetGapsOK 1000 (setupRun ⟨0, false, mkRat 33 10, mkRat 33 10, true, false⟩).1 0
        [⟨1000, false, ⟨mkRat 33 10, 5⟩, false, true, false, 0, false⟩,
         ⟨2000, false, ⟨mkRat 33 10, 5⟩, false, true, false, 0, false⟩,
         ⟨3000, false, ⟨mkRat 33 10, 5⟩, false, true, false, 0, false⟩,
         ⟨3500, false, ⟨mkRat 33 10, 5⟩, false, true, false, 0, false⟩] = false := by
  decide

/-! ## Claim C9 -/

theorem powerWatchDog_no_remoteInit (s : OrchState) (u : Bool) (b : Battery) (n : Nat) :
    Effect.remoteInit ∉ (powerWatchDog s u b n).2 := by
  simp only [powerWatchDog]
  split_ifs <;> simp

theorem periodicPhase_no_remoteInit (s : OrchState) (inp : Inputs) :
    Effect.remoteInit ∉ (periodicPhase s inp).2 := by
  simp only [periodicPhase]
  split_ifs with hc
  · intro hm
    simp only [List.mem_append, List.mem_cons, List.not_mem_nil] at hm
    rcases hm with (hm | hm | hm) | hm
    · exact Effect.noConfusion hm
    · exact Effect.noConfusion hm
    · exact hm
    · exact powerWatchDog_no_remoteInit _ _ _ _ hm
  · simp

theorem runTrace_cons (s : OrchState) (inp : Inputs) (rest : List Inputs) :
    runTrace s (inp :: rest) =
      ((runTrace (loopTick s inp).1 rest).1,
        (inp.now, (loopTick s inp).2) :: (runTrace (loopTick s inp).1 rest).2) :=
  rfl

theorem countRemoteInit_cons (p : Nat × List Effect) (t : List (Nat × List Effect)) :
    countRemoteInit (p :: t) = p.2.count Effect.remoteInit + countRemoteInit t := by
  simp [countRemoteInit]

theorem initRemotePhase_nofire (s : OrchState) (inp : Inputs)
    (h : ¬ (s.initRemoteTime ≠ 0 ∧ s.initRemoteTime < inp.now)) :
    initRemotePhase s inp = (s, []) := by
  rw [initRemotePhase, if_neg h]

theorem initRemotePhase_fire (s : OrchState) (inp : Inputs)
    (h1 : s.initRemoteTime ≠ 0) (h2 : s.initRemoteTime < inp.now) :
    initRemotePhase s inp =
      ({ s with initRemoteTime := 0 }, [Effect.remoteInit, Effect.startAdvertising]) := by
  rw [initRemotePhase, if_pos ⟨h1, h2⟩]

theorem loopTick_initZero (s : OrchState) (inp : Inputs) (h : s.initRemoteTime = 0) :
    (loopTick s inp).1.initRemoteTime = 0 ∧
      (loopTick s inp).2.count Effect.remoteInit = 0 := by
  by_cases hh : s.halted = true
  · simp [loopTick, hh, h]
  · have hhf : s.halted = false := by simpa using hh
    rw [loopTick_unhalted s inp hhf]
    have hXi : (periodicPhase s inp).1.initRemoteTime = 0 := by
      rw [(periodicPhase_state s inp).2, h]
    have hB : initRemotePhase (periodicPhase s inp).1 inp = ((periodicPhase s inp).1, []) :=
      initRemotePhase_nofire _ inp (fun hc => hc.1 hXi)
    have hC := (sleepFirePhase_state (initRemotePhase (periodicPhase s inp).1 inp).1 inp).2.2.2.1
    have hD := (sleepPlanPhase_state (tickC s inp).1 inp).2.2.2.1
    constructor
    · split_ifs
      · rw [tickC, hC, hB]
        exact hXi
      · rw [hD, tickC, hC, hB]
        exact hXi
    · simp only [List.count_append]
      have h1 : (periodicPhase s inp).2.count Effect.remoteInit = 0 :=
        List.count_eq_zero.mpr (periodicPhase_no_remoteInit s inp)
      have h2 : (initRemotePhase (periodicPhase s inp).1 inp).2 = [] := by rw [hB]
      have h3 : (tickC s inp).2.count Effect.remoteInit = 0 := by
        rcases sleepFirePhase_cases (initRemotePhase (periodicPhase s inp).1 inp).1 inp
          with hc | hc <;> rw [tickC, hc] <;> simp
      simp [h1, h2, h3]

theorem initRemoteZero_trace (inps : List Inputs) :
    ∀ s : OrchState, s.initRemoteTime = 0 →
      countRemoteInit (runTrace s inps).2 = 0 ∧
        (runTrace s inps).1.initRemoteTime = 0 ∧
        ∀ p ∈ (runTrace s inps).2, Effect.remoteInit ∉ p.2 := by
  induction inps with
  | nil =>
    intro s h
    exact ⟨rfl, h, by simp [runTrace]⟩
  | cons inp rest ih =>
    intro s h
    have hstep := loopTick_initZero s inp h
    have htail := ih (loopTick s inp).1 hstep.1
    rw [runTrace_cons]
    refine ⟨?_, htail.2.1, ?_⟩
    · rw [countRemoteInit_cons, hstep.2, htail.1]
    · intro p hp
      rcases List.mem_cons.mp hp with rfl | hp'
      · exact List.count_eq_zero.mp hstep.2
      · exact htail.2.2 p hp'

/-- The state shape holding from the end of a normal boot with deferred
remote init requested, until the deferred init fires. -/
def preInit (bootMillis : Nat) (s : OrchState) : Prop :=
  s.halted = false ∧
    s.initRemoteTime = bootMillis + REMOTE_INIT_TIMEOUT ∧
    bootMillis + PERIODIC_OPERATIONS_INTERVAL ≤ s.periodicOperationsTime ∧
    (s.deepSleepTime = 0 ∨ bootMillis + REMOTE_INIT_TIMEOUT < s.deepSleepTime)

theorem periodicPhase_nofire (s : OrchState) (inp : Inputs)
    (h : ¬ s.periodicOperationsTime < inp.now) : periodicPhase s inp = (s, []) := by
  rw [periodicPhase, if_neg]
  intro hc
  exact h hc.2

theorem sleepFirePhase_unarmed (s : OrchState) (inp : Inputs)
    (h : s.deepSleepTime = 0) : sleepFirePhase s inp = (s, []) := by
  rw [sleepFirePhase, if_neg]
  intro hc
  exact hc.1 h

theorem sleepPlanPhase_dst_cases (s : OrchState) (inp : Inputs) :
    (sleepPlanPhase s inp).deepSleepTime = s.deepSleepTime ∨
      (sleepPlanPhase s inp).deepSleepTime = 0 ∨
      (sleepPlanPhase s inp).deepSleepTime = inp.now + DEEP_SLEEP_INACTIVITY_TIMEOUT := by
  simp only [sleepPlanPhase]
  split_ifs <;> simp

theorem loopTick_preInit (B : Nat) (s : OrchState) (inp : Inputs)
    (hP : preInit B s) (hlo : B ≤ inp.now) (hhi : inp.now ≤ B + REMOTE_INIT_TIMEOUT) :
    preInit B (loopTick s inp).1 ∧ (loopTick s inp).2 = [] := by
  obtain ⟨hh, hir, hpot, hdst⟩ := hP
  have hEnum : REMOTE_INIT_TIMEOUT < PERIODIC_OPERATIONS_INTERVAL := by decide
  have hA : periodicPhase s inp = (s, []) := by
    refine periodicPhase_nofire s inp ?_
    omega
  have hB : initRemotePhase s inp = (s, []) := by
    refine initRemotePhase_nofire s inp ?_
    intro hc
    rw [hir] at hc
    omega
  have hC : sleepFirePhase s inp = (s, []) := by
    rcases hdst with hz | hgt
    · exact sleepFirePhase_unarmed s inp hz
    · refine sleepFirePhase_nofire s inp ?_
      omega
  have hTick : loopTick s inp = (sleepPlanPhase s inp, []) := by
    rw [loopTick_unhalted s inp hh, tickC, hA]
    simp only
    rw [hB]
    simp only
    rw [hC]
    simp only
    rw [if_neg]
    · simp
    · rw [hh]
      simp
  rw [hTick]
  have hS := sleepPlanPhase_state s inp
  refine ⟨⟨hS.2.2.2.2.2.trans hh, hS.2.2.2.1.trans hir, ?_, ?_⟩, rfl⟩
  · rw [hS.2.2.1]
    exact hpot
  · rcases sleepPlanPhase_dst_cases s inp with hc | hc | hc
    · rw [hc]
      exact hdst
    · exact Or.inl hc
    · right
      rw [hc]
      have hEnum2 : REMOTE_INIT_TIMEOUT < DEEP_SLEEP_INACTIVITY_TIMEOUT := by decide
      omega

theorem loopTick_initFire (B : Nat) (s : OrchState) (inp : Inputs)
    (hP : preInit B s) (hhi : B + REMOTE_INIT_TIMEOUT < inp.now) :
    (loopTick s inp).1.initRemoteTime = 0 ∧
      (loopTick s inp).2.count Effect.remoteInit = 1 := by
  obtain ⟨hh, hir, _, _⟩ := hP
  rw [loopTick_unhalted s inp hh]
  have hRIT : 0 < REMOTE_INIT_TIMEOUT := by decide
  have hXi : (periodicPhase s inp).1.initRemoteTime = B + REMOTE_INIT_TIMEOUT := by
    rw [(periodicPhase_state s inp).2, hir]
  have hB : initRemotePhase (periodicPhase s inp).1 inp =
      ({ (periodicPhase s inp).1 with initRemoteTime := 0 },
        [Effect.remoteInit, Effect.startAdvertising]) := by
    refine initRemotePhase_fire _ inp ?_ ?_ <;> rw [hXi] <;> omega
  have hC := (sleepFirePhase_state (initRemotePhase (periodicPhase s inp).1 inp).1 inp).2.2.2.1
  have hD := (sleepPlanPhase_state (tickC s inp).1 inp).2.2.2.1
  constructor
  · split_ifs
    · rw [tickC, hC, hB]
    · rw [hD, tickC, hC, hB]
  · simp only [List.count_append]
    have h1 : (periodicPhase s inp).2.count Effect.remoteInit = 0 :=
      List.count_eq_zero.mpr (periodicPhase_no_remoteInit s inp)
    have h2 : (initRemotePhase (periodicPhase s inp).1 inp).2.count Effect.remoteInit = 1 := by
      rw [hB]
      rfl
    have h3 : (tickC s inp).2.count Effect.remoteInit = 0 := by
      rcases sleepFirePhase_cases (initRemotePhase (periodicPhase s inp).1 inp).1 inp
        with hc | hc <;> rw [tickC, hc] <;> simp
    simp [h1, h2, h3]

theorem deferred_init_trace (B : Nat) (inps : List Inputs) :
    ∀ (s : OrchState) (prev : Nat), preInit B s → B ≤ prev →
      monoFrom prev inps = true →
      (∃ inp ∈ inps, B + REMOTE_INIT_TIMEOUT < inp.now) →
      countRemoteInit (runTrace s inps).2 = 1 ∧
        (runTrace s inps).1.initRemoteTime = 0 ∧
        ∀ p ∈ (runTrace s inps).2,
          Effect.remoteInit ∈ p.2 → B + REMOTE_INIT_TIMEOUT < p.1 := by
  induction inps with
  | nil =>
    intro s prev _ _ _ hlive
    simp at hlive
  | cons inp rest ih =>
    intro s prev hP hBprev hmono hlive
    have hg : prev ≤ inp.now ∧ monoFrom inp.now rest = true := by
      simpa [monoFrom, Bool.and_eq_true, decide_eq_true_eq] using hmono
    obtain ⟨hp1, hmono'⟩ := hg
    rw [runTrace_cons]
    by_cases hhi : B + REMOTE_INIT_TIMEOUT < inp.now
    · have hf := loopTick_initFire B s inp hP hhi
      have htail := initRemoteZero_trace rest (loopTick s inp).1 hf.1
      refine ⟨?_, htail.2.1, ?_⟩
      · rw [countRemoteInit_cons, hf.2, htail.1]
      · intro p hp
        rcases List.mem_cons.mp hp with rfl | hp'
        · intro _
          exact hhi
        · intro hmem
          exact absurd hmem (htail.2.2 p hp')
    · have hhi' : inp.now ≤ B + REMOTE_INIT_TIMEOUT := Nat.le_of_not_lt hhi
      have hlo : B ≤ inp.now := le_trans hBprev hp1
      have hstep := loopTick_preInit B s inp hP hlo hhi'
      have hlive' : ∃ j ∈ rest, B + REMOTE_INIT_TIMEOUT < j.now := by
        rcases hlive with ⟨j, hj, hjgt⟩
        rcases List.mem_cons.mp hj with rfl | hjr
        · exact absurd hjgt hhi
        · exact ⟨j, hjr, hjgt⟩
      have htail := ih (loopTick s inp).1 inp.now hstep.1 hlo hmono' hlive'
      refine ⟨?_, htail.2.1, ?_⟩
      · rw [countRemoteInit_cons, hstep.2, htail.1]
        simp
      · intro p hp
        rcases List.mem_cons.mp hp with rfl | hp'
        · rw [hstep.2]
          intro hmem
          exact absurd hmem (List.not_mem_nil _)
        · exact htail.2.2 p hp'

theorem setupRun_normal (i : SetupInputs) (h : (setupRun i).1.batteryDead = false) :
    (setupRun i).1 =
      { batteryDead := false
        batteryCharging := i.usbPowered
        deepSleepTime := 0
        periodicOperationsTime := i.bootMillis + PERIODIC_OPERATIONS_INTERVAL
        initRemoteTime :=
          if i.initRemoteOnStartup then i.bootMillis + REMOTE_INIT_TIMEOUT else 0
        lowPowerMode := false
        halted := false } := by
  revert h
  simp only [setupRun, normalBoot, initialState]
  split_ifs <;> intro h <;> first | rfl | simp_all

/-- Counterexample to C9 as stated: on a dead-battery boot with
`initRemoteOnStartup = true` the deferred-init timer is never armed
(`setup()` arms it only in the non-dead branch), so even though iterations
occur well past `REMOTE_INIT_TIMEOUT` after boot, the deferred action fires
zero times in that process lifetime — not exactly once. -/
theorem deferred_init_dead_boot_counterexample :
    (⟨0, false, mkRat 33 10, mkRat 33 10, true, false⟩ : SetupInputs).initRemoteOnStartup =
        true ∧
      (setupRun ⟨0, false, mkRat 33 10, mkRat 33 10, true, false⟩).1.initRemoteTime = 0 ∧
      countRemoteInit (runTrace (setupRun ⟨0, false, mkRat 33 10, mkRat 33 10, true, false⟩).1
        [⟨2500, false, ⟨mkRat 33 10, 5⟩, false, true, false, 0, false⟩,
         ⟨4000, false, ⟨mkRat 33 10, 5⟩, false, true, false, 0, false⟩]).2 = 0 := by
  decide

/-- C9 (amended): when deferred wireless initialization is requested and
the boot battery check passes (non-dead boot, so the timer is armed at
boot), along any run of loop iterations with non-decreasing timestamps
starting from boot, if some iteration occurs strictly later than
`REMOTE_INIT_TIMEOUT` after boot then the deferred action (remote init then
advertising) fires exactly once, every firing happens strictly later than
`REMOTE_INIT_TIMEOUT` after boot, and the timer ends cleared (never
re-armed).  On a dead-battery boot the timer is never armed and the action
never fires. -/
theorem deferred_init_once (i : SetupInputs) (inps : List Inputs)
    (hflag : i.initRemoteOnStartup = true)
    (hnotdead : (setupRun i).1.batteryDead = false)
    (hmono : monoFrom i.bootMillis inps = true)
    (hlive : ∃ inp ∈ inps, i.bootMillis + REMOTE_INIT_TIMEOUT < inp.now) :
    countRemoteInit (runTrace (setupRun i).1 inps).2 = 1 ∧
      (runTrace (setupRun i).1 inps).1.initRemoteTime = 0 ∧
      ∀ p ∈ (runTrace (setupRun i).1 inps).2,
        Effect.remoteInit ∈ p.2 → i.bootMillis + REMOTE_INIT_TIMEOUT < p.1 := by
  have hs := setupRun_normal i hnotdead
  have hP : preInit i.bootMillis (setupRun i).1 := by
    rw [hs]
    exact ⟨rfl, by simp [hflag], le_refl _, Or.inl rfl⟩
  exact deferred_init_trace i.bootMillis inps (setupRun i).1 i.bootMillis hP
    (le_refl _) hmono hlive

/-- Witness for C9: boot at 0 with the flag set, iterations at 1000 and
2500 ms. -/
theorem deferred_init_once_witness :
    countRemoteInit (runTrace (setupRun ⟨0, true, 4, 4, true, false⟩).1
        [⟨1000, true, ⟨4, 80⟩, false, true, false, 0, false⟩,
         ⟨2500, true, ⟨4, 80⟩, false, true, false, 0, false⟩]).2 = 1 ∧
      (runTrace (setupRun ⟨0, true, 4, 4, true, false⟩).1
        [⟨1000, true, ⟨4, 80⟩, false, true, false, 0, false⟩,
         ⟨2500, true, ⟨4, 80⟩, false, true, false, 0, false⟩]).1.initRemoteTime = 0 ∧
      ∀ p ∈ (runTrace (setupRun ⟨0, true, 4, 4, true, false⟩).1
        [⟨1000, true, ⟨4, 80⟩, false, true, false, 0, false⟩,
         ⟨2500, true, ⟨4, 80⟩, false, true, false, 0, false⟩]).2,
        Effect.remoteInit ∈ p.2 → (0:Nat) + REMOTE_INIT_TIMEOUT < p.1 :=
  deferred_init_once ⟨0, true, 4, 4, true, false⟩
    [⟨1000, true, ⟨4, 80⟩, false, true, false, 0, false⟩,
     ⟨2500, true, ⟨4, 80⟩, false, true, false, 0, false⟩]
    rfl (by decide) (by decide) (by decide)

end Floower
